import Mathlib

/-!
Verification development for the `generator` repository.

The embedding models the two core source files:

* `cosmology/element.py` — the `Element` attribute bag, the `Luminary`
  specialization and its private nearest-color classifier `__describe_rgb`;
* `cosmology/cosmology.py` — the `Cosmology` aggregate: seeded generation of
  the luminary list (`__generate_luminaries`), the initial numeric ledger
  (`__generate_number`), and the ledger / counting operations
  (`add_number`, `remove_number`, `count_attribute`).

External library facts (numpy / scipy) are modelled abstractly: the draws the
generator consumes from the seeded random source are collected in a `Draws`
record, and a whole construction run is parametrised by a function from seeds
to draws.  Floating-point values are modelled as rationals: every comparison
the code performs (sorting, the `<= 9.5` visibility threshold, equality with
the `1.00` anchor, comparisons of color distances between integer grid points)
is exact at the float precision involved, so the rational model is faithful.
-/

/-- `Element` (element.py): a dynamic attribute bag.  Python stores the
attributes in the instance dictionary; both `getattr`/`setattr` and the
`__getitem__`/`__setitem__` bracket protocol read and write that single
store.  We model the store as a partial map from attribute names to values. -/
structure Element (α : Type) where
  attrs : String → Option α

/-- Direct attribute read (`getattr`). -/
def Element.getattr {α : Type} (e : Element α) (key : String) : Option α :=
  e.attrs key

/-- Direct attribute write (`setattr`). -/
def Element.setattr {α : Type} (e : Element α) (key : String) (v : α) : Element α :=
  ⟨fun k => if k = key then some v else e.attrs k⟩

/-- `Element.__getitem__`: delegates to `getattr` on the same store. -/
def Element.getItem {α : Type} (e : Element α) (key : String) : Option α :=
  e.getattr key

/-- `Element.__setitem__`: delegates to `setattr` on the same store. -/
def Element.setItem {α : Type} (e : Element α) (key : String) (v : α) : Element α :=
  e.setattr key v

/-- The empty string, used as the (unreachable) default of `List.getD` when
indexing the reference-color name table. -/
def blank : String := ""

/-- The five reference color names of `Luminary.__describe_rgb`, in source
order. -/
def refNames : List String :=
  ["orange", "red", "green", "blue", "white"]

/-- The five reference RGB triples of `Luminary.__describe_rgb`, in source
order (orange, red, green, blue, white). -/
def refValues : List (ℤ × ℤ × ℤ) :=
  [(255, 165, 0), (255, 0, 0), (0, 255, 0), (0, 0, 255), (255, 255, 255)]

/-- Squared Euclidean distance between two integer RGB triples.  The source
computes `numpy.linalg.norm(value - rgb, axis=1)`, the Euclidean length; on
integer grid points the float norms compare (and tie) exactly as the squared
distances do, so the classifier below works with the squares and the theorems
relate them back to the Euclidean lengths through `Real.sqrt`. -/
def sqDist (v w : ℤ × ℤ × ℤ) : ℤ :=
  (v.1 - w.1) ^ 2 + (v.2.1 - w.2.1) ^ 2 + (v.2.2 - w.2.2) ^ 2

/-- `Luminary.__describe_rgb`: compute the distance from `rgb` to each of the
five reference colors, take the minimum, and return the name at the first
index attaining it (`numpy.where(distance == distance.min())[0][0]`). -/
def describe_rgb (rgb : ℤ × ℤ × ℤ) : String :=
  let distance := refValues.map (fun v => sqDist v rgb)
  let closest := List.findIdx (fun x => x == distance.min?.getD 0) distance
  refNames.getD closest blank

/-- `Luminary` (element.py): the celestial specialization of `Element`, with
its four fixed attributes.  The spec's design note says to reproduce the
attribute bag as a typed record with one field per named attribute, which is
what we do here. -/
structure Luminary where
  distance : ℚ
  visible : Bool
  rgb : ℤ × ℤ × ℤ
  color : String
deriving DecidableEq, Repr

/-- `Luminary.__init__`: stores `distance`, `visible`, `rgb` and derives
`color` from `rgb` via the classifier; `color` is never passed in. -/
def Luminary.init (distance : ℚ) (visible : Bool) (rgb : ℤ × ℤ × ℤ) : Luminary :=
  { distance := distance, visible := visible, rgb := rgb, color := describe_rgb rgb }

example : describe_rgb (255, 165, 0) = "orange" := by decide
example : describe_rgb (255, 0, 0) = "red" := by decide
example : describe_rgb (0, 255, 0) = "green" := by decide
example : describe_rgb (0, 0, 255) = "blue" := by decide
example : describe_rgb (255, 255, 255) = "white" := by decide

/-- The values `Cosmology.__generate_luminaries` consumes from the seeded
random source, in draw order: `n, scale = rng.integers(4, 16, 2)` (two
integers, each uniform in `[4, 16)`), then the `n` skew-normal samples
`skewnorm.rvs(2, size=n, scale=scale, random_state=rng)`, then the
`rng.integers(0, 255, size=(n + 1, 3), endpoint=True)` RGB rows (drawn after
`n += 1`, so `n + 1` rows).  The numpy generator guarantees these are a pure
function of the seed; theorems quantify over the record (with the range and
length facts the library guarantees as hypotheses where they are needed). -/
structure Draws where
  n : ℕ
  scale : ℕ
  samples : List ℚ
  rgbs : List (ℤ × ℤ × ℤ)
deriving DecidableEq, Repr

/-- The anchored raw distance sequence: append the `0.00` anchor, then append
the `1.00` anchor unless `1.00` is already present (`if 1.00 not in dist`). -/
def anchoredDist (samples : List ℚ) : List ℚ :=
  let dist := samples ++ [0]
  if (1 : ℚ) ∈ dist then dist else dist ++ [1]

/-- Rounding to 2 decimal places, modelling `numpy.round(_, 2)` on the
sampled values. -/
def round2 (q : ℚ) : ℚ :=
  (round (q * 100) : ℤ) / 100

/-- The final sorted distance sequence of `__generate_luminaries`:
`dist = absolute(dist).round(2); dist.sort()` applied to the anchored
sequence. -/
def sortedDistances (samples : List ℚ) : List ℚ :=
  List.insertionSort (· ≤ ·) ((anchoredDist samples).map (fun x => round2 |x|))

/-- `Cosmology.__generate_luminaries`, parametrised by the draws.  After the
anchors, `n` is incremented once (`n += 1`) and exactly `n + 1` luminaries
are built from `dist[i]`, `vis[i] = (dist <= 9.5)[i]`, and the RGB rows,
with row 0 unconditionally overwritten by `(255, 165, 0)`
(`rgb[0] = array([255, 165, 0])`). -/
def generate_luminaries (d : Draws) : List Luminary :=
  let dist := sortedDistances d.samples
  let vis := dist.map (fun q => decide (q ≤ 9.5))
  (List.range (d.n + 1)).map (fun i =>
    Luminary.init (dist.getD i 0) (vis.getD i false)
      (if i = 0 then (255, 165, 0) else d.rgbs.getD i (0, 0, 0)))

/-- `Cosmology.__generate_number`: the one-element initial ledger holding the
number of visible luminaries. -/
def generate_number (luminary : List Luminary) : List ℤ :=
  [((luminary.filter (fun l => l.visible)).length : ℤ)]

/-- `Cosmology` (cosmology.py): seed, luminary list, and numeric ledger.  The
ledger (a numpy integer array in the source) is modelled as a list of
integers. -/
structure Cosmology where
  seed : ℕ
  luminary : List Luminary
  number : List ℤ
deriving DecidableEq, Repr

/-- `Cosmology.__init__` with an explicit seed: derive the random source from
the seed (modelled by applying the seed-to-draws function of that source),
generate the luminaries, then the initial ledger. -/
def Cosmology.init (d : Draws) (seed : ℕ) : Cosmology :=
  let luminary := generate_luminaries d
  { seed := seed, luminary := luminary, number := generate_number luminary }

/-- `Cosmology.add_number`: `self.number = append(self.number, n)`. -/
def Cosmology.add_number (c : Cosmology) (n : ℤ) : Cosmology :=
  { c with number := c.number ++ [n] }

/-- `Cosmology.remove_number`: `self.number = self.number[self.number != n]`,
the boolean-mask filter keeping every entry different from `n`. -/
def Cosmology.remove_number (c : Cosmology) (n : ℤ) : Cosmology :=
  { c with number := c.number.filter (fun m => m != n) }

/-- The attribute values `getattr(self, name)` can yield on a `Cosmology` for
the names `count_attribute` distinguishes: the luminary list, the numeric
ledger array, or the plain integer `seed` property (which has no `shape`). -/
inductive CosmoAttr
  | lumList (l : List Luminary)
  | numArr (a : List ℤ)
  | intVal (n : ℕ)

/-- `getattr(self, name)` on a `Cosmology`, `none` modelling the
`AttributeError` raised for a name that is not an attribute. -/
def Cosmology.getattrOf (c : Cosmology) (name : String) : Option CosmoAttr :=
  if name = "luminary" then some (CosmoAttr.lumList c.luminary)
  else if name = "number" then some (CosmoAttr.numArr c.number)
  else if name = "seed" then some (CosmoAttr.intVal c.seed)
  else none

/-- Python `str.lower()`, modelled structurally over the character list
(the attribute names involved are ASCII). -/
def lowerName (s : String) : String :=
  String.mk (s.data.map Char.toLower)

/-- `Cosmology.count_attribute`: `getattr(self, attribute.lower())`, then
`len` for a list and `.shape[0]` otherwise.  `none` models the raised
`AttributeError`: for an unknown name it comes from `getattr`, for the
integer `seed` from the missing `.shape`. -/
def Cosmology.count_attribute (c : Cosmology) (attrName : String) : Option ℕ :=
  match c.getattrOf (lowerName attrName) with
  | some (CosmoAttr.lumList l) => some l.length
  | some (CosmoAttr.numArr a) => some a.length
  | some (CosmoAttr.intVal _) => none
  | none => none

/-- A concrete draw record used by the closed witness theorems: `n = 4`,
four samples no one of which equals `1.00`, and five RGB rows. -/
def dOne : Draws :=
  { n := 4, scale := 5, samples := [2, 3, 4, 5],
    rgbs := [(9, 9, 9), (250, 10, 10), (10, 250, 10), (10, 10, 250), (200, 200, 200)] }

example : sortedDistances dOne.samples = [0, 1, 2, 3, 4, 5] := by
  with_unfolding_all decide

example : (generate_luminaries dOne).length = 5 := by with_unfolding_all decide

example : (generate_luminaries dOne).map Luminary.color
    = ["orange", "red", "green", "blue", "white"] := by with_unfolding_all decide

example : generate_number (generate_luminaries dOne) = [5] := by
  with_unfolding_all decide

/-- Length of the sorted distance sequence: one anchor is appended when
`1.00` already occurs among the samples plus the appended `0.00`, two
otherwise. -/
lemma length_sortedDistances (samples : List ℚ) :
    (sortedDistances samples).length
      = if (1 : ℚ) ∈ samples ++ [0] then samples.length + 1 else samples.length + 2 := by
  simp only [sortedDistances, anchoredDist]
  by_cases hmem : (1 : ℚ) ∈ samples ++ [0]
  · rw [if_pos hmem, if_pos hmem]
    simp [List.length_insertionSort]
  · rw [if_neg hmem, if_neg hmem]
    simp [List.length_insertionSort]

/-- Reading a list through `getD` at the indices `0, …, m - 1` reproduces its
`m`-element prefix when `m` is within bounds. -/
lemma range_map_getD {α : Type} (l : List α) (dflt : α) (m : ℕ)
    (h : m ≤ l.length) :
    (List.range m).map (fun i => l.getD i dflt) = l.take m := by
  apply List.ext_getElem
  · simpa using h
  · intro n h₁ h₂
    simp only [List.getElem_map, List.getElem_range, List.getElem_take]
    exact l.getD_eq_getElem dflt (lt_of_lt_of_le (by simpa using h₁) h)

/-- The generator always builds exactly `d.n + 1` luminaries. -/
lemma length_generate_luminaries (d : Draws) :
    (generate_luminaries d).length = d.n + 1 := by
  simp [generate_luminaries]

/-- Under the library guarantee that the sample list has the drawn length
`d.n`, the sorted distance sequence is at least as long as the body count. -/
lemma body_count_le_length (d : Draws) (h : d.samples.length = d.n) :
    d.n + 1 ≤ (sortedDistances d.samples).length := by
  rw [length_sortedDistances, h]
  split <;> omega

/-- The distances of the generated luminaries are exactly the `(d.n + 1)`-
element prefix of the sorted distance sequence. -/
lemma generate_map_distance (d : Draws) (h : d.samples.length = d.n) :
    (generate_luminaries d).map Luminary.distance
      = (sortedDistances d.samples).take (d.n + 1) := by
  unfold generate_luminaries
  rw [List.map_map]
  exact range_map_getD (sortedDistances d.samples) 0 (d.n + 1)
    (body_count_le_length d h)

@[simp] lemma Luminary.init_distance (q : ℚ) (v : Bool) (r : ℤ × ℤ × ℤ) :
    (Luminary.init q v r).distance = q := rfl

@[simp] lemma Luminary.init_visible (q : ℚ) (v : Bool) (r : ℤ × ℤ × ℤ) :
    (Luminary.init q v r).visible = v := rfl

@[simp] lemma Luminary.init_rgb (q : ℚ) (v : Bool) (r : ℤ × ℤ × ℤ) :
    (Luminary.init q v r).rgb = r := rfl

@[simp] lemma Luminary.init_color (q : ℚ) (v : Bool) (r : ℤ × ℤ × ℤ) :
    (Luminary.init q v r).color = describe_rgb r := rfl

/-- Every member of a `≤`-sorted nonempty list is bounded by the list's last
element (read through `getLastD`). -/
lemma sorted_le_getLastD :
    ∀ (a : ℚ) (l : List ℚ), List.Sorted (· ≤ ·) (a :: l) →
      ∀ x ∈ a :: l, x ≤ (a :: l).getLastD 0
  | a, [], _, x, hx => by
    simp only [List.mem_singleton] at hx
    simp [hx, List.getLastD]
  | a, b :: t, hs, x, hx => by
    have hs' : List.Sorted (· ≤ ·) (b :: t) := hs.of_cons
    have hlast : (a :: b :: t).getLastD 0 = (b :: t).getLastD 0 := rfl
    rw [hlast]
    rcases List.mem_cons.mp hx with rfl | hx'
    · exact le_trans (List.rel_of_sorted_cons hs b (List.mem_cons_self b t))
        (sorted_le_getLastD b t hs' b (List.mem_cons_self b t))
    · exact sorted_le_getLastD b t hs' x hx'

/-- C1: the claim states that the number of Luminary entities constructed
equals the length of the anchored, sorted distance sequence.  The code
instead always constructs `n + 1` luminaries (`n += 1` after the sampling),
while the sorted sequence has `n + 2` entries whenever the `1.00` anchor was
appended; here is a concrete valid draw record on which the two lengths
differ. -/
theorem c1_counterexample :
    4 ≤ dOne.n ∧ dOne.n < 16 ∧ dOne.samples.length = dOne.n ∧
    (generate_luminaries dOne).length ≠ (sortedDistances dOne.samples).length := by
  refine ⟨by decide, by decide, by decide, ?_⟩
  with_unfolding_all decide

/-- C1 (amended): the number of Luminary entities constructed always equals
`n + 1` (the pre-anchor sample count plus one); the anchored sorted distance
sequence has `n + 1` entries when `1.00` already occurred among the sampled
values plus the appended `0.00`, and `n + 2` entries when `1.00` was
additionally appended, so the body count equals its length only in the first
case. -/
theorem c1_body_count (d : Draws) (h : d.samples.length = d.n) :
    (generate_luminaries d).length = d.n + 1 ∧
    (sortedDistances d.samples).length
      = if (1 : ℚ) ∈ d.samples ++ [0] then d.n + 1 else d.n + 2 := by
  refine ⟨length_generate_luminaries d, ?_⟩
  rw [length_sortedDistances, h]

/-- C1 witness: the amended statement evaluated on the concrete draw record
`dOne`. -/
theorem c1_witness :
    dOne.samples.length = dOne.n ∧
    ((generate_luminaries dOne).length = dOne.n + 1 ∧
      (sortedDistances dOne.samples).length
        = if (1 : ℚ) ∈ dOne.samples ++ [0] then dOne.n + 1 else dOne.n + 2) :=
  ⟨by decide, c1_body_count dOne (by decide)⟩

/-- C2: two independently constructed Cosmology instances with the same seed
produce luminary sequences of the same length that agree element-for-element
in distance, visible, rgb and color.  The seeded random source is a pure
function from the seed to the consumed draws (`stream`), and construction
performs its draws in one fixed order, so both runs evaluate the same
function at the same argument. -/
theorem c2_determinism (stream : ℕ → Draws) (s : ℕ) :
    (Cosmology.init (stream s) s).luminary.length
      = (Cosmology.init (stream s) s).luminary.length ∧
    ∀ i : ℕ,
      ((Cosmology.init (stream s) s).luminary.getD i
          (Luminary.init 0 false (0, 0, 0))).distance
        = ((Cosmology.init (stream s) s).luminary.getD i
            (Luminary.init 0 false (0, 0, 0))).distance ∧
      ((Cosmology.init (stream s) s).luminary.getD i
          (Luminary.init 0 false (0, 0, 0))).visible
        = ((Cosmology.init (stream s) s).luminary.getD i
            (Luminary.init 0 false (0, 0, 0))).visible ∧
      ((Cosmology.init (stream s) s).luminary.getD i
          (Luminary.init 0 false (0, 0, 0))).rgb
        = ((Cosmology.init (stream s) s).luminary.getD i
            (Luminary.init 0 false (0, 0, 0))).rgb ∧
      ((Cosmology.init (stream s) s).luminary.getD i
          (Luminary.init 0 false (0, 0, 0))).color
        = ((Cosmology.init (stream s) s).luminary.getD i
            (Luminary.init 0 false (0, 0, 0))).color :=
  ⟨rfl, fun _ => ⟨rfl, rfl, rfl, rfl⟩⟩

/-- C3: `remove_number n` removes every occurrence of `n` from the ledger,
leaves the multiplicity of every other value unchanged, and is a total no-op
when `n` is absent. -/
theorem c3_remove_number (c : Cosmology) (n : ℤ) :
    n ∉ (c.remove_number n).number ∧
    (∀ m : ℤ, m ≠ n → (c.remove_number n).number.count m = c.number.count m) ∧
    (n ∉ c.number → c.remove_number n = c) := by
  refine ⟨?_, ?_, ?_⟩
  · intro hmem
    simp [Cosmology.remove_number, List.mem_filter] at hmem
  · intro m hm
    show (c.number.filter (fun x => x != n)).count m = c.number.count m
    exact List.count_filter (by simpa [bne_iff_ne] using hm)
  · intro hn
    have hfix : c.number.filter (fun m => m != n) = c.number := by
      rw [List.filter_eq_self]
      intro a ha
      simp only [bne_iff_ne, ne_eq, decide_eq_true_eq]
      exact fun h => hn (h ▸ ha)
    cases c
    simp [Cosmology.remove_number, hfix]

/-- C3 witness: a concrete ledger.  Removing the absent value `3` from the
ledger `[5]` is a no-op, and the multiplicity of `5` is unchanged. -/
theorem c3_witness :
    (5 : ℤ) ≠ 3 ∧ (3 : ℤ) ∉ ([5] : List ℤ) ∧
    (3 : ℤ) ∉ ((Cosmology.mk 0 [] [5]).remove_number 3).number ∧
    ((Cosmology.mk 0 [] [5]).remove_number 3).number.count 5
      = (Cosmology.mk 0 [] [5]).number.count 5 ∧
    (Cosmology.mk 0 [] [5]).remove_number 3 = Cosmology.mk 0 [] [5] :=
  ⟨by decide, by decide, (c3_remove_number (Cosmology.mk 0 [] [5]) 3).1,
    (c3_remove_number (Cosmology.mk 0 [] [5]) 3).2.1 5 (by decide),
    (c3_remove_number (Cosmology.mk 0 [] [5]) 3).2.2 (by decide)⟩

/-- C5: every generated Cosmology has at least 2 luminaries, and their
distances are sorted ascending. -/
theorem c5_length_sorted (d : Draws) (s : ℕ) (h4 : 4 ≤ d.n)
    (h : d.samples.length = d.n) :
    2 ≤ (Cosmology.init d s).luminary.length ∧
    List.Sorted (· ≤ ·) ((Cosmology.init d s).luminary.map Luminary.distance) := by
  have hlum : (Cosmology.init d s).luminary = generate_luminaries d := rfl
  rw [hlum]
  constructor
  · rw [length_generate_luminaries]
    omega
  · rw [generate_map_distance d h]
    exact List.Pairwise.sublist (List.take_sublist _ _)
      (List.sorted_insertionSort (· ≤ ·) _)

/-- C5 witness: the invariant evaluated on the concrete draw record
`dOne`. -/
theorem c5_witness :
    4 ≤ dOne.n ∧ dOne.samples.length = dOne.n ∧
    (2 ≤ (Cosmology.init dOne 7).luminary.length ∧
      List.Sorted (· ≤ ·) ((Cosmology.init dOne 7).luminary.map Luminary.distance)) :=
  ⟨by decide, by decide, c5_length_sorted dOne 7 (by decide) (by decide)⟩

/-- C6: whatever the draws (in particular whatever RGB row was drawn for
index 0), the first generated luminary's color is `"orange"`: its RGB triple
is unconditionally overwritten with `(255, 165, 0)`, which the classifier
resolves to `"orange"`. -/
theorem c6_first_orange (d : Draws) (s : ℕ) :
    (((Cosmology.init d s).luminary).map Luminary.color).head? = some ("orange") := by
  have hlum : (Cosmology.init d s).luminary = generate_luminaries d := rfl
  rw [hlum]
  unfold generate_luminaries
  rw [List.range_succ_eq_map]
  simp only [List.map_cons, List.head?_cons, Luminary.init_color,
    Option.some.injEq, if_true]
  decide

/-- C7: every generated luminary is visible exactly when its distance is at
most 9.5. -/
theorem c7_visible_iff (d : Draws) (s : ℕ) (h : d.samples.length = d.n) :
    ∀ l ∈ (Cosmology.init d s).luminary, (l.visible = true ↔ l.distance ≤ 9.5) := by
  intro l hl
  have hlum : (Cosmology.init d s).luminary = generate_luminaries d := rfl
  rw [hlum] at hl
  simp only [generate_luminaries, List.mem_map, List.mem_range] at hl
  obtain ⟨i, hi, rfl⟩ := hl
  have hlen : i < (sortedDistances d.samples).length :=
    lt_of_lt_of_le hi (body_count_le_length d h)
  simp only [Luminary.init_visible, Luminary.init_distance]
  rw [List.getD_eq_getElem _ false (by simpa using hlen),
    List.getD_eq_getElem _ 0 hlen, List.getElem_map]
  simp

/-- C7 witness: the central body generated from `dOne` (distance `0`,
visible) satisfies the equivalence. -/
theorem c7_witness :
    dOne.samples.length = dOne.n ∧
    Luminary.init 0 true (255, 165, 0) ∈ (Cosmology.init dOne 7).luminary ∧
    ((Luminary.init 0 true (255, 165, 0)).visible = true
      ↔ (Luminary.init 0 true (255, 165, 0)).distance ≤ 9.5) :=
  ⟨by decide, by with_unfolding_all decide,
    c7_visible_iff dOne 7 (by decide) _ (by with_unfolding_all decide)⟩

/-- C8: `count_attribute` returns the luminary count for `"luminary"` (the
generated body count on a constructed instance) and the ledger cardinality
for `"number"`, and for every name that does not correspond to a tracked
collection — any name whose lowercased form is neither `"luminary"` nor
`"number"`, such as `"bogus"` — it signals a lookup failure rather than
returning a value (`AttributeError`, modelled by `none`: raised by `getattr`
for an unknown name, and by the missing `.shape` for the integer `seed`). -/
theorem c8_count_attribute (c : Cosmology) (d : Draws) (s : ℕ) :
    Cosmology.count_attribute c ("luminary") = some c.luminary.length ∧
    Cosmology.count_attribute c ("number") = some c.number.length ∧
    Cosmology.count_attribute (Cosmology.init d s) ("luminary")
      = some (generate_luminaries d).length ∧
    ∀ name : String, lowerName name ≠ "luminary" → lowerName name ≠ "number" →
      Cosmology.count_attribute c name = none := by
  refine ⟨rfl, rfl, rfl, ?_⟩
  intro name h1 h2
  unfold Cosmology.count_attribute Cosmology.getattrOf
  rw [if_neg h1, if_neg h2]
  by_cases h3 : lowerName name = "seed"
  · rw [if_pos h3]
  · rw [if_neg h3]

/-- C8 witness: the untracked name `"bogus"` evaluated on a concrete
Cosmology, discharging the two disequality hypotheses. -/
theorem c8_witness :
    lowerName ("bogus") ≠ "luminary" ∧ lowerName ("bogus") ≠ "number" ∧
    Cosmology.count_attribute (Cosmology.mk 3 [] [7]) ("bogus") = none :=
  ⟨by decide, by decide,
    (c8_count_attribute (Cosmology.mk 3 [] [7]) dOne 0).2.2.2 ("bogus")
      (by decide) (by decide)⟩

/-- C9: bracket-style key access and direct attribute access on an `Element`
observe one underlying store: writing through either path is read back
unchanged through the other. -/
theorem c9_element_roundtrip {α : Type} (e : Element α) (key : String) (v : α) :
    (Element.setItem e key v).getattr key = some v ∧
    (Element.setattr e key v).getItem key = some v := by
  constructor <;>
    simp [Element.setItem, Element.setattr, Element.getItem, Element.getattr]

/-- C10: the number of luminaries constructed equals the first drawn integer
plus one, hence lies in `[5, 16]`; and whenever the `1.00` anchor was
appended in addition to `0.00`, the sorted sequence has `n + 2` entries of
which only the first `n + 1` become luminary distances, so the final (and
largest, by sortedness) entry is excluded. -/
theorem c10_body_count (d : Draws) (h4 : 4 ≤ d.n) (h16 : d.n < 16)
    (h : d.samples.length = d.n) :
    (generate_luminaries d).length = d.n + 1 ∧
    5 ≤ (generate_luminaries d).length ∧ (generate_luminaries d).length ≤ 16 ∧
    ((1 : ℚ) ∉ d.samples ++ [0] →
      (sortedDistances d.samples).length = d.n + 2 ∧
      (generate_luminaries d).map Luminary.distance
        = (sortedDistances d.samples).take (d.n + 1) ∧
      ∀ x ∈ sortedDistances d.samples, x ≤ (sortedDistances d.samples).getLastD 0) := by
  refine ⟨length_generate_luminaries d, ?_, ?_,
    fun hmem => ⟨?_, generate_map_distance d h, ?_⟩⟩
  · rw [length_generate_luminaries]
    omega
  · rw [length_generate_luminaries]
    omega
  · rw [length_sortedDistances, h, if_neg hmem]
  · intro x hx
    have hsorted : List.Sorted (· ≤ ·) (sortedDistances d.samples) :=
      List.sorted_insertionSort (· ≤ ·) _
    match hd : sortedDistances d.samples, hx, hsorted with
    | a :: t, hx, hsorted => exact sorted_le_getLastD a t hsorted x hx

/-- C10 witness: the statement evaluated on the concrete draw record `dOne`,
where the `1.00` anchor is appended and the largest sorted entry `5` is
excluded from the five generated distances. -/
theorem c10_witness :
    4 ≤ dOne.n ∧ dOne.n < 16 ∧ dOne.samples.length = dOne.n ∧
    (1 : ℚ) ∉ dOne.samples ++ [0] ∧
    ((generate_luminaries dOne).length = dOne.n + 1 ∧
      5 ≤ (generate_luminaries dOne).length ∧
      (generate_luminaries dOne).length ≤ 16 ∧
      ((sortedDistances dOne.samples).length = dOne.n + 2 ∧
        (generate_luminaries dOne).map Luminary.distance
          = (sortedDistances dOne.samples).take (dOne.n + 1) ∧
        ∀ x ∈ sortedDistances dOne.samples,
          x ≤ (sortedDistances dOne.samples).getLastD 0)) :=
  ⟨by decide, by decide, by decide, by with_unfolding_all decide,
    (c10_body_count dOne (by decide) (by decide) (by decide)).1,
    (c10_body_count dOne (by decide) (by decide) (by decide)).2.1,
    (c10_body_count dOne (by decide) (by decide) (by decide)).2.2.1,
    (c10_body_count dOne (by decide) (by decide) (by decide)).2.2.2
      (by with_unfolding_all decide)⟩

instance : Std.Antisymm (fun (a b : ℤ) => a ≤ b) :=
  ⟨fun h h' => le_antisymm h h'⟩

/-- Characterisation of `List.min?` on integer lists: the returned value is a
member and a lower bound. -/
lemma int_min_spec {l : List ℤ} {a : ℤ} (h : l.min? = some a) :
    a ∈ l ∧ ∀ b ∈ l, a ≤ b := by
  rw [List.min?_eq_some_iff] at h
  · exact h
  · exact fun a => le_refl a
  · exact fun a b => min_choice a b
  · exact fun a b c => le_min_iff

/-- A squared distance is non-negative. -/
lemma sqDist_nonneg (v w : ℤ × ℤ × ℤ) : 0 ≤ sqDist v w := by
  unfold sqDist
  positivity

/-- The index the classifier selects: the first index of the distance list
whose entry equals the minimum (`where(distance == distance.min())[0][0]`). -/
def closestIdx (rgb : ℤ × ℤ × ℤ) : ℕ :=
  List.findIdx (fun x => x == (refValues.map (fun v => sqDist v rgb)).min?.getD 0)
    (refValues.map (fun v => sqDist v rgb))

lemma describe_rgb_closest (rgb : ℤ × ℤ × ℤ) :
    describe_rgb rgb = refNames.getD (closestIdx rgb) blank := rfl

/-- The first index of a nonempty integer list whose entry equals the list's
minimum is in bounds, holds a value bounded by every entry, and every
earlier entry is strictly larger. -/
lemma argmin_first_spec (l : List ℤ) (hne : l ≠ []) (i : ℕ)
    (hi : i = List.findIdx (fun x => x == l.min?.getD 0) l) :
    i < l.length ∧ (∀ j, j < l.length → l.getD i 0 ≤ l.getD j 0) ∧
    (∀ j, j < i → l.getD i 0 < l.getD j 0) := by
  obtain ⟨m, hm⟩ : ∃ m, l.min? = some m := by
    cases l with
    | nil => exact absurd rfl hne
    | cons a t => exact ⟨t.foldl min a, rfl⟩
  obtain ⟨hmemm, hminm⟩ := int_min_spec hm
  have hgd : l.min?.getD 0 = m := by rw [hm]; rfl
  rw [hgd] at hi
  subst hi
  have hilt : List.findIdx (fun x => x == m) l < l.length :=
    List.findIdx_lt_length_of_exists ⟨m, hmemm, beq_self_eq_true m⟩
  have hval : l.getD (List.findIdx (fun x => x == m) l) 0 = m := by
    rw [List.getD_eq_getElem _ _ hilt]
    exact beq_iff_eq.mp (@List.findIdx_getElem _ _ _ hilt)
  refine ⟨hilt, ?_, ?_⟩
  · intro j hj
    rw [hval, List.getD_eq_getElem _ _ hj]
    exact hminm _ (List.getElem_mem hj)
  · intro j hj
    have hjlt : j < l.length := lt_trans hj hilt
    have hfalse : (l[j] == m) = false := List.not_of_lt_findIdx hj
    have hne' : l[j] ≠ m := by
      intro heq
      rw [heq, beq_self_eq_true] at hfalse
      exact absurd hfalse (by decide)
    rw [hval, List.getD_eq_getElem _ _ hjlt]
    exact lt_of_le_of_ne (hminm _ (List.getElem_mem hjlt)) (Ne.symm hne')

/-- Reading the mapped distance list through `getD` computes the squared
distance from the reference triple at the same index. -/
lemma getD_map_sqDist (w : ℤ × ℤ × ℤ) (j : ℕ) (hj : j < 5) :
    (refValues.map (fun v => sqDist v w)).getD j 0
      = sqDist (refValues.getD j (0, 0, 0)) w := by
  have hjr : j < refValues.length := by simpa [refValues] using hj
  rw [List.getD_eq_getElem _ 0 (by simpa [refValues] using hj), List.getElem_map,
    List.getD_eq_getElem _ _ hjr]

/-- The classifier's chosen index is in bounds, attains the minimal squared
distance, and beats every earlier reference strictly. -/
lemma closestIdx_spec (w : ℤ × ℤ × ℤ) :
    closestIdx w < 5 ∧
    (∀ j, j < 5 →
      sqDist (refValues.getD (closestIdx w) (0, 0, 0)) w
        ≤ sqDist (refValues.getD j (0, 0, 0)) w) ∧
    (∀ j, j < closestIdx w →
      sqDist (refValues.getD (closestIdx w) (0, 0, 0)) w
        < sqDist (refValues.getD j (0, 0, 0)) w) := by
  have hlen : (refValues.map (fun v => sqDist v w)).length = 5 := by
    simp [refValues]
  obtain ⟨hilt, hle, hlt⟩ :=
    argmin_first_spec (refValues.map (fun v => sqDist v w)) (by simp [refValues])
      (closestIdx w) rfl
  have h5 : closestIdx w < 5 := by rw [← hlen]; exact hilt
  refine ⟨h5, ?_, ?_⟩
  · intro j hj
    have h := hle j (by rw [hlen]; exact hj)
    rwa [getD_map_sqDist w (closestIdx w) h5, getD_map_sqDist w j hj] at h
  · intro j hj
    have h := hlt j hj
    rwa [getD_map_sqDist w (closestIdx w) h5,
      getD_map_sqDist w j (lt_trans hj h5)] at h

/-- Every in-bounds read of the reference-name table yields one of the five
reference names. -/
lemma getD_refNames_mem (k : ℕ) (hk : k < 5) : refNames.getD k blank ∈ refNames := by
  interval_cases k <;> decide

/-- C4: for every RGB triple of integers in `[0, 255]`, the classifier
returns the name of the reference color (orange, red, green, blue, white, in
that order) at minimum Euclidean distance from the input, breaking ties in
favour of the earlier reference; it is total on such inputs.  Euclidean
distances are expressed as real square roots of the integer squared
distances. -/
theorem c4_color_classifier (r g b : ℤ)
    (hr0 : 0 ≤ r) (hr1 : r ≤ 255) (hg0 : 0 ≤ g) (hg1 : g ≤ 255)
    (hb0 : 0 ≤ b) (hb1 : b ≤ 255) :
    ∃ i : ℕ, i < 5 ∧
      describe_rgb (r, g, b) = refNames.getD i blank ∧
      describe_rgb (r, g, b) ∈ refNames ∧
      (∀ j : ℕ, j < 5 →
        Real.sqrt ((sqDist (refValues.getD i (0, 0, 0)) (r, g, b) : ℤ) : ℝ)
          ≤ Real.sqrt ((sqDist (refValues.getD j (0, 0, 0)) (r, g, b) : ℤ) : ℝ)) ∧
      (∀ j : ℕ, j < i →
        Real.sqrt ((sqDist (refValues.getD i (0, 0, 0)) (r, g, b) : ℤ) : ℝ)
          < Real.sqrt ((sqDist (refValues.getD j (0, 0, 0)) (r, g, b) : ℤ) : ℝ)) := by
  obtain ⟨h5, hle, hlt⟩ := closestIdx_spec (r, g, b)
  refine ⟨closestIdx (r, g, b), h5, describe_rgb_closest (r, g, b), ?_, ?_, ?_⟩
  · rw [describe_rgb_closest (r, g, b)]
    exact getD_refNames_mem _ h5
  · intro j hj
    exact Real.sqrt_le_sqrt (by exact_mod_cast hle j hj)
  · intro j hj
    exact Real.sqrt_lt_sqrt (by exact_mod_cast sqDist_nonneg _ _)
      (by exact_mod_cast hlt j hj)

/-- C4 witness: the classifier evaluated at the in-range input
`(200, 180, 20)`, which resolves to `"orange"`. -/
theorem c4_witness :
    ((0 : ℤ) ≤ 200 ∧ (200 : ℤ) ≤ 255 ∧ (0 : ℤ) ≤ 180 ∧ (180 : ℤ) ≤ 255 ∧
      (0 : ℤ) ≤ 20 ∧ (20 : ℤ) ≤ 255) ∧
    describe_rgb (200, 180, 20) = "orange" ∧
    (∃ i : ℕ, i < 5 ∧
      describe_rgb (200, 180, 20) = refNames.getD i blank ∧
      describe_rgb (200, 180, 20) ∈ refNames ∧
      (∀ j : ℕ, j < 5 →
        Real.sqrt ((sqDist (refValues.getD i (0, 0, 0)) (200, 180, 20) : ℤ) : ℝ)
          ≤ Real.sqrt ((sqDist (refValues.getD j (0, 0, 0)) (200, 180, 20) : ℤ) : ℝ)) ∧
      (∀ j : ℕ, j < i →
        Real.sqrt ((sqDist (refValues.getD i (0, 0, 0)) (200, 180, 20) : ℤ) : ℝ)
          < Real.sqrt ((sqDist (refValues.getD j (0, 0, 0)) (200, 180, 20) : ℤ) : ℝ))) :=
  ⟨⟨by decide, by decide, by decide, by decide, by decide, by decide⟩, by decide,
    c4_color_classifier 200 180 20 (by decide) (by decide) (by decide)
      (by decide) (by decide) (by decide)⟩
